import Mathlib

/-!
Shallow embedding of the `better-auth-playwright` test-data provisioning
library: the server plugin (`src/server.ts`), the Playwright client fixture
(`src/playwright.ts`) and the built-in api-key extension
(`src/plugins/api-key.ts`).

JavaScript values that matter to the contracts are modelled explicitly:
JSON bodies as an inductive `JVal`, nullable strings as `Option String`,
thrown exceptions as `Except String`, and the backend adapter as a record
of fallible operations. Instrumentation: the orchestrators additionally
return a log of extension invocations so ordering claims are expressible.
-/

namespace BAP

/-- JSON-like values used for request/response bodies and plugin data. -/
inductive JVal where
  | null
  | bool (b : Bool)
  | num (n : Int)
  | str (s : String)
  | arr (xs : List JVal)
  | obj (fields : List (String × JVal))

/-- A user record as stored by the authentication backend. -/
structure UserRec where
  id : Nat
  email : String
  name : String
  emailVerified : Bool
  deriving DecidableEq

/-- A credential account record (`providerId = "credential"`). -/
structure AccountRec where
  userId : Nat
  providerId : String
  accountId : Nat
  password : String
  deriving DecidableEq

/-- A session record; `activeOrganizationId` stands for extension-mutable
session fields. -/
structure SessionRec where
  id : Nat
  token : String
  userId : Nat
  activeOrganizationId : Option String
  deriving DecidableEq

/-- The backend's storage state. -/
structure DB where
  users : List UserRec
  accounts : List AccountRec
  sessions : List SessionRec
  nextId : Nat
  deriving DecidableEq

/-- Result shape of `internalAdapter.findSession`. -/
structure FoundSession where
  session : SessionRec
  deriving DecidableEq

/-- Result shape of `internalAdapter.findUserByEmail`. -/
structure FoundUser where
  user : UserRec
  deriving DecidableEq

/-- The slice of better-auth's `internalAdapter` (plus the password hasher)
that the endpoints use. Operations are fallible: an `Except.error` models a
thrown/rejected promise. -/
structure Adapter where
  createUser : String → String → Bool → DB → Except String (DB × UserRec)
  createAccount : AccountRec → DB → Except String DB
  createSession : Nat → DB → Except String (DB × SessionRec)
  findSession : String → DB → Except String (Option FoundSession)
  findUserByEmail : String → DB → Except String (Option FoundUser)
  deleteUser : Nat → DB → Except String DB
  hashPassword : String → String

/-- A reference backend adapter: fresh ids from `nextId`, list-backed
storage, deletion by filtering. Used to instantiate theorems. -/
def refAdapter : Adapter where
  createUser := fun email name verified db =>
    let u : UserRec := ⟨db.nextId, email, name, verified⟩
    .ok ({ db with users := db.users ++ [u], nextId := db.nextId + 1 }, u)
  createAccount := fun acc db =>
    .ok { db with accounts := db.accounts ++ [acc] }
  createSession := fun uid db =>
    let s : SessionRec := ⟨db.nextId, "token-" ++ toString db.nextId, uid, none⟩
    .ok ({ db with sessions := db.sessions ++ [s], nextId := db.nextId + 1 }, s)
  findSession := fun tok db =>
    .ok ((db.sessions.find? (fun s => s.token = tok)).map FoundSession.mk)
  findUserByEmail := fun email db =>
    .ok ((db.users.find? (fun u => u.email = email)).map FoundUser.mk)
  deleteUser := fun uid db =>
    .ok { db with users := db.users.filter (fun u => u.id ≠ uid) }
  hashPassword := fun p => "hashed:" ++ p

/-- Context handed to an extension's `onCreateUser`
(`CreateUserContext` in `src/types.ts`; the live auth context and raw
request carry no information the model needs beyond presence). -/
structure CreateUserContext where
  user : UserRec
  session : SessionRec

/-- A test-data extension (`TestDataPlugin` in `src/types.ts`).
`onCreateUser` may read and transform the backend state and may throw;
`onDeleteUser` is optional. -/
structure TestDataPlugin where
  id : String
  onCreateUser : CreateUserContext → JVal → DB → Except String (DB × JVal)
  onDeleteUser : Option (UserRec → DB → Except String DB)

/-- `options.secret ?? process.env.TEST_DATA_SECRET` — the nullish
coalescing keeps an explicitly configured empty string. -/
def resolveSecret (optSecret : Option String) (env : Option String) : Option String :=
  match optSecret with
  | some s => some s
  | none => env

/-- JavaScript truthiness of a `string | undefined` value: `undefined` and
`""` are falsy. -/
def jsTruthyStr : Option String → Bool
  | none => false
  | some s => s ≠ ""

/-- `email.split('@')[0]` — the characters before the first `@` (the
whole string when there is none); the default display name. -/
def localPart (email : String) : String :=
  String.mk (email.toList.takeWhile (fun c => c ≠ '@'))

/-- `ctx.body.pluginData?.[plugin.id] ?? {}`: a missing map, a missing key
or a `null` value all fall back to the empty object. -/
def lookupPluginOpts (pd : Option (List (String × JVal))) (id : String) : JVal :=
  match pd with
  | none => .obj []
  | some l =>
    match l.lookup id with
    | none => .obj []
    | some .null => .obj []
    | some v => v

/-- An HTTP response produced by `ctx.json`. -/
structure Resp where
  status : Nat
  body : JVal

def errorBody (msg : String) : JVal := .obj [("error", .str msg)]

def disabledResp : Resp := ⟨404, .null⟩
def unauthorizedResp : Resp := ⟨401, errorBody "Unauthorized"⟩

/-- Instrumentation: one entry per extension hook invocation. -/
inductive CallEv where
  | create (id : String) (opts : JVal)
  | delete (id : String)

/-- Observable outcome of one endpoint handler: the HTTP response, the
final backend state, the extension-invocation log, and the
`{session, user}` pair passed to `setSessionCookie` (when it was called). -/
structure Outcome where
  resp : Resp
  db : DB
  log : List CallEv
  cookie : Option (SessionRec × UserRec)

/-- Request body accepted by the provisioning endpoint. -/
structure CreateBody where
  email : String
  name : Option String
  password : Option String
  pluginData : Option (List (String × JVal))

/-- State threaded through the provisioning extension loop. -/
structure LoopSt where
  db : DB
  log : List CallEv

/-- How the provisioning extension loop ends: either every extension ran
(`results`) or the handler returned early with a response (`respond`). -/
inductive CreateLoopOut where
  | results (st : LoopSt) (rs : List (String × JVal))
  | respond (st : LoopSt) (r : Resp)

/-- The note appended to the 500 message when the rollback deletion of the
just-created user itself failed. -/
def rollbackNote : String :=
  " (warning: user rollback also failed — orphan record may exist)"

/-- The 500 message reported when extension `id` threw `msg` during
provisioning. -/
def pluginFailedMsg (id msg : String) : String :=
  "Plugin \"" ++ id ++ "\" failed: " ++ msg

/-- Step 4 of `createTestUser` (`src/server.ts` lines 82–118): run the
extensions sequentially in registration order; on a throw, abort the loop,
attempt to delete the user, and respond 500. Also checks per iteration
that the raw request object is present, as the source does. -/
def runCreatePlugins (a : Adapter) (user : UserRec) (session : SessionRec)
    (request? : Option Unit) (pd : Option (List (String × JVal))) :
    List TestDataPlugin → LoopSt → List (String × JVal) → CreateLoopOut
  | [], st, acc => .results st acc
  | p :: rest, st, acc =>
    let opts := lookupPluginOpts pd p.id
    match request? with
    | none =>
      .respond st ⟨500, errorBody "Internal error: request object missing from context"⟩
    | some _ =>
      let log1 := st.log ++ [.create p.id opts]
      match p.onCreateUser ⟨user, session⟩ opts st.db with
      | .ok (db', v) =>
          runCreatePlugins a user session request? pd rest ⟨db', log1⟩ (acc ++ [(p.id, v)])
      | .error msg =>
        match a.deleteUser user.id st.db with
        | .ok db'' =>
            .respond ⟨db'', log1⟩ ⟨500, errorBody (pluginFailedMsg p.id msg)⟩
        | .error _ =>
            .respond ⟨st.db, log1⟩ ⟨500, errorBody (pluginFailedMsg p.id msg ++ rollbackNote)⟩

/-- Steps 1–3 of `createTestUser`: create the user (name defaulting to the
email's local part), optionally a credential account with the hashed
password, and a session. -/
def provisionBase (a : Adapter) (body : CreateBody) (db : DB) :
    Except String (DB × UserRec × SessionRec) := do
  let name := body.name.getD (localPart body.email)
  let (db1, user) ← a.createUser body.email name true db
  let db2 ←
    if jsTruthyStr body.password then
      a.createAccount ⟨user.id, "credential", user.id, a.hashPassword body.password.get!⟩ db1
    else
      pure db1
  let (db3, session) ← a.createSession user.id db2
  pure (db3, user, session)

/-- The 200 body returned by the provisioning endpoint. -/
def createOkBody (user : UserRec) (session : SessionRec)
    (rs : List (String × JVal)) : JVal :=
  .obj [("user", .obj [("id", .num user.id), ("email", .str user.email),
                       ("name", .str user.name)]),
        ("session", .obj [("id", .num session.id), ("token", .str session.token)]),
        ("plugins", .obj rs)]

/-- The `createTestUser` endpoint handler (`src/server.ts` lines 35–146):
secret gate, base provisioning, extension loop, session re-fetch (fatal if
it finds nothing), cookie from the re-fetched session, 200 body. -/
def createTestUser (secret : Option String) (plugins : List TestDataPlugin)
    (a : Adapter) (header : Option String) (request? : Option Unit)
    (body : CreateBody) (db : DB) : Except String Outcome :=
  match secret with
  | none => .ok ⟨disabledResp, db, [], none⟩
  | some s =>
    if s = "" then .ok ⟨disabledResp, db, [], none⟩
    else if header ≠ some s then .ok ⟨unauthorizedResp, db, [], none⟩
    else do
      let (db3, user, session) ← provisionBase a body db
      match runCreatePlugins a user session request? body.pluginData plugins ⟨db3, []⟩ [] with
      | .respond st r => pure ⟨r, st.db, st.log, none⟩
      | .results st rs =>
        match ← a.findSession session.token st.db with
        | none =>
            pure ⟨⟨500, errorBody "Session lookup failed after plugin execution"⟩,
                  st.db, st.log, none⟩
        | some fs =>
            pure ⟨⟨200, createOkBody user session rs⟩, st.db, st.log,
                  some (fs.session, user)⟩

/-- State threaded through the deprovisioning extension loop. -/
structure DelLoopSt where
  db : DB
  warns : List String
  log : List CallEv

/-- The warning recorded when extension `id`'s cleanup threw `msg`. -/
def pluginWarnMsg (id msg : String) : String :=
  "Plugin \"" ++ id ++ "\": " ++ msg

/-- The deprovisioning extension loop (`src/server.ts` lines 171–184):
called on the reversed registration list; every present `onDeleteUser`
runs, a throw is caught and recorded as a warning. -/
def runDeletePlugins (user : UserRec) :
    List TestDataPlugin → DelLoopSt → DelLoopSt
  | [], st => st
  | p :: rest, st =>
    match p.onDeleteUser with
    | none => runDeletePlugins user rest st
    | some f =>
      let log1 := st.log ++ [.delete p.id]
      match f user st.db with
      | .ok db' => runDeletePlugins user rest ⟨db', st.warns, log1⟩
      | .error msg =>
          runDeletePlugins user rest ⟨st.db, st.warns ++ [pluginWarnMsg p.id msg], log1⟩

/-- The 200 body returned by the deprovisioning endpoint: `warnings` is
present only when some cleanup failed. -/
def deleteOkBody (warns : List String) : JVal :=
  if warns.length > 0 then
    .obj [("success", .bool true), ("warnings", .arr (warns.map .str))]
  else
    .obj [("success", .bool true)]

/-- The `deleteTestUser` endpoint handler (`src/server.ts` lines 148–194):
secret gate, user lookup (404 when absent), reverse-order failure-isolated
extension cleanup, unconditional user deletion, success body with
warnings. -/
def deleteTestUser (secret : Option String) (plugins : List TestDataPlugin)
    (a : Adapter) (header : Option String) (email : String) (db : DB) :
    Except String Outcome :=
  match secret with
  | none => .ok ⟨disabledResp, db, [], none⟩
  | some s =>
    if s = "" then .ok ⟨disabledResp, db, [], none⟩
    else if header ≠ some s then .ok ⟨unauthorizedResp, db, [], none⟩
    else do
      match ← a.findUserByEmail email db with
      | none => pure ⟨⟨404, errorBody "User not found"⟩, db, [], none⟩
      | some found =>
        let st := runDeletePlugins found.user plugins.reverse ⟨db, [], []⟩
        let db2 ← a.deleteUser found.user.id st.db
        pure ⟨⟨200, deleteOkBody st.warns⟩, db2, st.log, none⟩

/-- The `getTestCapabilities` endpoint handler (`src/server.ts` lines
196–219): secret gate, then the registered test-plugin ids and the
installed better-auth plugin ids. -/
def getTestCapabilities (secret : Option String) (plugins : List TestDataPlugin)
    (authPluginIds : List String) (header : Option String) (db : DB) : Outcome :=
  match secret with
  | none => ⟨disabledResp, db, [], none⟩
  | some s =>
    if s = "" then ⟨disabledResp, db, [], none⟩
    else if header ≠ some s then ⟨unauthorizedResp, db, [], none⟩
    else
      ⟨⟨200, .obj [("plugins", .arr (plugins.map (fun p => .str p.id))),
                   ("detectedAuthPlugins", .arr (authPluginIds.map .str))]⟩,
       db, [], none⟩

/-! ## Client fixture (`src/playwright.ts`) -/

/-- An HTTP route: method plus path. -/
structure Route where
  method : String
  path : String
  deriving DecidableEq

/-- The route the server plugin registers for provisioning. -/
def createTestUserRoute : Route := ⟨"POST", "/test-data/user"⟩

/-- The route the server plugin registers for deprovisioning. -/
def deleteTestUserRoute : Route := ⟨"DELETE", "/test-data/user"⟩

/-- The route the server plugin registers for capabilities. -/
def getTestCapabilitiesRoute : Route := ⟨"GET", "/test-data/capabilities"⟩

/-- The request the fixture's `createUser` sends, relative to the
configured base path (`src/playwright.ts` lines 100–112). -/
def createUserRequest (basePath : String) : Route :=
  ⟨"POST", basePath ++ "/test-data/user"⟩

/-- The request the fixture's `cleanup` sends, relative to the configured
base path (`src/playwright.ts` lines 160–167). -/
def cleanupRequest (basePath : String) : Route :=
  ⟨"POST", basePath ++ "/test-data/delete-user"⟩

/-- A route registered by the plugin, as mounted by better-auth under the
configured base path. -/
def mountedRoute (basePath : String) (r : Route) : Route :=
  ⟨r.method, basePath ++ r.path⟩

/-- Parsed body of a deprovisioning success response, as the fixture reads
it: `{success, warnings?}`. -/
structure DeleteRespBody where
  success : Bool
  warnings : Option (List String)

/-- What one `fetch` from `cleanup` can observe: a rejected promise
(transport failure) or a response whose JSON body may itself fail to
parse. -/
inductive FetchOutcome where
  | netError (msg : String)
  | httpResp (ok : Bool) (status : Nat) (statusText : String)
      (jsonBody : Except String DeleteRespBody)

/-- `body.warnings?.length` truthiness: absent or empty is falsy. -/
def warningsTruthy : Option (List String) → Bool
  | none => false
  | some l => l.length ≠ 0

def cleanupFailWarn (email : String) (status : Nat) (statusText : String) : String :=
  "[better-auth-playwright] cleanup failed for " ++ email ++ ": "
    ++ toString status ++ " " ++ statusText

def cleanupWarningsWarn (email : String) (warns : List String) : String :=
  "[better-auth-playwright] cleanup warnings for " ++ email ++ ": "
    ++ String.intercalate "; " warns

def cleanupCatchWarn (email : String) (msg : String) : String :=
  "[better-auth-playwright] cleanup failed for " ++ email ++ ": " ++ msg

/-- The body of `cleanup`'s `try` block (`src/playwright.ts` lines
159–183): an `Except.error` is an exception escaping the block. -/
def cleanupTryBody (email : String) (o : FetchOutcome) : Except String (List String) :=
  match o with
  | .netError msg => .error msg
  | .httpResp ok status statusText jsonBody =>
    if !ok then
      .ok [cleanupFailWarn email status statusText]
    else
      match jsonBody with
      | .error msg => .error msg
      | .ok b =>
        if warningsTruthy b.warnings then
          .ok [cleanupWarningsWarn email (b.warnings.getD [])]
        else
          .ok []

/-- The fixture's `cleanup(email)` (`src/playwright.ts` lines 158–190):
the whole body is wrapped in `try/catch`, the catch only logs. The result
is the list of warnings logged; an `Except.error` result would model a
thrown exception reaching the caller. -/
def cleanup (email : String) (o : FetchOutcome) : Except String (List String) :=
  match cleanupTryBody email o with
  | .ok logs => .ok logs
  | .error msg => .ok [cleanupCatchWarn email msg]

/-- One `auth.createUser` call as the tracking logic observes it: the email
used and whether the call succeeded (`res.ok` and body parse); only then is
the email pushed onto `created`. -/
structure CreateCall where
  email : String
  success : Bool

/-- The `created` list after a sequence of `createUser` calls
(`src/playwright.ts` line 126: `created.push(email)` on the success path
only). -/
def trackedEmails : List CreateCall → List String
  | [] => []
  | c :: rest =>
    if c.success then c.email :: trackedEmails rest else trackedEmails rest

/-- The fixture teardown (`src/playwright.ts` lines 195–198): await
`cleanup` for every tracked email in order. Returns the sequence of emails
for which `cleanup` was invoked; an exception from any `cleanup` would
abort the remainder of the loop. -/
def teardown (outcomes : String → FetchOutcome) :
    List String → Except String (List String)
  | [] => .ok []
  | e :: rest => do
    let _ ← cleanup e (outcomes e)
    let tr ← teardown outcomes rest
    pure (e :: tr)

/-! ## Built-in api-key extension (`src/plugins/api-key.ts`) -/

/-- The slice of an api-key table row the cleanup logic touches. -/
structure ApiKeyRow where
  id : Nat
  userId : Nat
  deriving DecidableEq

/-- `adapter.findMany` with the `userId = user.id` where-clause. -/
def findKeysByUser (rows : List ApiKeyRow) (uid : Nat) : List ApiKeyRow :=
  rows.filter (fun k => k.userId = uid)

/-- The delete loop inside `onDeleteUser`'s `try` block: delete each found
key by id; a failing `adapter.delete` throws out of the loop. Returns the
remaining rows, the ids whose deletion was invoked, and the escaped
exception when one occurred. -/
def apiKeyDeleteLoop (deleteFails : Nat → Bool) :
    List ApiKeyRow → List ApiKeyRow → List Nat →
    (List ApiKeyRow × List Nat × Option String)
  | [], rows, deleted => (rows, deleted, none)
  | k :: rest, rows, deleted =>
    if deleteFails k.id then
      (rows, deleted ++ [k.id], some "adapter delete failed")
    else
      apiKeyDeleteLoop deleteFails rest (rows.filter (fun r => r.id ≠ k.id))
        (deleted ++ [k.id])

/-- The api-key extension's `onDeleteUser` (`src/plugins/api-key.ts` lines
106–126): find the user's keys and delete them, with the whole find+delete
wrapped in a `catch` that swallows adapter errors. `findFails` and
`deleteFails` model adapter failures. The result is the remaining rows and
the ids whose deletion was invoked; an `Except.error` would model an
exception reaching the deprovisioning orchestrator. -/
def apiKeyOnDeleteUser (rows : List ApiKeyRow) (uid : Nat)
    (findFails : Bool) (deleteFails : Nat → Bool) :
    Except String (List ApiKeyRow × List Nat) :=
  if findFails then
    .ok (rows, [])
  else
    match apiKeyDeleteLoop deleteFails (findKeysByUser rows uid) rows [] with
    | (rows', deleted, _) => .ok (rows', deleted)

/-! ## Concrete instances used to instantiate the theorems -/

/-- An extension whose `onCreateUser` always succeeds and which has no
cleanup hook. -/
def okPlugin : TestDataPlugin :=
  ⟨"org", fun _ _ d => .ok (d, .str "ok"), none⟩

/-- An extension whose `onCreateUser` always throws. -/
def badPlugin : TestDataPlugin :=
  ⟨"bad", fun _ _ _ => .error "boom", none⟩

/-- A cleanup hook that always throws. -/
def delFailF : UserRec → DB → Except String DB := fun _ _ => .error "boom"

/-- An extension with a failing cleanup hook. -/
def delFailPlugin : TestDataPlugin :=
  ⟨"delfail", fun _ _ d => .ok (d, .null), some delFailF⟩

/-- A cleanup hook that always succeeds. -/
def delOkF : UserRec → DB → Except String DB := fun _ d => .ok d

/-- An extension with a succeeding cleanup hook. -/
def delOkPlugin : TestDataPlugin :=
  ⟨"delok", fun _ _ d => .ok (d, .null), some delOkF⟩

/-- A provisioning request body with only an email. -/
def body0 : CreateBody := ⟨"a@test.local", none, none, none⟩

/-- An empty backend state. -/
def db0 : DB := ⟨[], [], [], 1⟩

/-- The user `provisionBase refAdapter body0 db0` creates. -/
def userW0 : UserRec := ⟨1, "a@test.local", "a", true⟩

/-- The session `provisionBase refAdapter body0 db0` creates. -/
def sessW0 : SessionRec := ⟨2, "token-2", 1, none⟩

/-- The backend state after `provisionBase refAdapter body0 db0`. -/
def db3W : DB := ⟨[userW0], [], [sessW0], 3⟩

/-- A backend state already holding `userW0`. -/
def dbW : DB := ⟨[userW0], [], [], 2⟩

/-! ## Theorems -/

/-- C1: the fixture's `cleanup(email)` does not call the server's
deprovisioning route: for every base path, the request it sends (POST
`basePath ++ "/test-data/delete-user"`) matches none of the three routes
the server plugin registers under that base path — in particular not the
deprovisioning route (DELETE `/test-data/user`) — so a success response
from cleanup's request cannot mean the server-side user deletion ran. -/
theorem cleanup_route_mismatch :
    ∀ basePath : String,
      (cleanupRequest basePath).method ≠ deleteTestUserRoute.method ∧
      cleanupRequest basePath ≠ mountedRoute basePath deleteTestUserRoute ∧
      cleanupRequest basePath ≠ mountedRoute basePath createTestUserRoute ∧
      cleanupRequest basePath ≠ mountedRoute basePath getTestCapabilitiesRoute := by
  intro basePath
  refine ⟨show "POST" ≠ "DELETE" by decide, ?_, ?_, ?_⟩ <;>
  · intro h
    have hp := congrArg (fun r => r.path.length) h
    simp only [cleanupRequest, mountedRoute, deleteTestUserRoute, createTestUserRoute,
      getTestCapabilitiesRoute, String.length_append, Nat.add_right_cancel_iff,
      Nat.add_left_cancel_iff] at hp
    exact absurd hp (by decide)

/-- C5: for each of the three endpoints, an unresolved secret yields a 404
with no state change and no extension invocation, whatever the header; a
configured nonempty secret with a mismatched header yields a 401, again
with no state change and no extension invocation. -/
theorem endpoints_disabled_or_unauthorized
    (plugins : List TestDataPlugin) (a : Adapter) (header : Option String)
    (request? : Option Unit) (body : CreateBody) (email : String) (db : DB)
    (authIds : List String) :
    (createTestUser none plugins a header request? body db = .ok ⟨disabledResp, db, [], none⟩ ∧
     deleteTestUser none plugins a header email db = .ok ⟨disabledResp, db, [], none⟩ ∧
     getTestCapabilities none plugins authIds header db = ⟨disabledResp, db, [], none⟩) ∧
    (∀ s : String, s ≠ "" → header ≠ some s →
      createTestUser (some s) plugins a header request? body db
          = .ok ⟨unauthorizedResp, db, [], none⟩ ∧
      deleteTestUser (some s) plugins a header email db
          = .ok ⟨unauthorizedResp, db, [], none⟩ ∧
      getTestCapabilities (some s) plugins authIds header db
          = ⟨unauthorizedResp, db, [], none⟩) := by
  constructor
  · exact ⟨rfl, rfl, rfl⟩
  · intro s hs hh
    refine ⟨?_, ?_, ?_⟩ <;>
      simp [createTestUser, deleteTestUser, getTestCapabilities, hs, hh]

/-- C5 witness: concrete instantiation of the gate theorem. -/
theorem endpoints_disabled_or_unauthorized_witness :
    createTestUser (some "sec") [] refAdapter (some "wrong") (some ())
        ⟨"a@test.local", none, none, none⟩ ⟨[], [], [], 1⟩
      = .ok ⟨unauthorizedResp, ⟨[], [], [], 1⟩, [], none⟩ ∧
    deleteTestUser none [] refAdapter none "a@test.local" ⟨[], [], [], 1⟩
      = .ok ⟨disabledResp, ⟨[], [], [], 1⟩, [], none⟩ := by
  have h := endpoints_disabled_or_unauthorized [] refAdapter (some "wrong")
    (some ()) ⟨"a@test.local", none, none, none⟩ "a@test.local" ⟨[], [], [], 1⟩ []
  have h2 := endpoints_disabled_or_unauthorized [] refAdapter none
    (some ()) ⟨"a@test.local", none, none, none⟩ "a@test.local" ⟨[], [], [], 1⟩ []
  exact ⟨(h.2 "sec" (by decide) (by decide)).1, h2.1.2.1⟩

/-- C7: the fixture's `cleanup` returns normally on every fetch outcome —
transport error, non-success status, unparsable body, success with
warnings, success without warnings — logging at most a warning, never
propagating an exception. -/
theorem cleanup_never_throws :
    (∀ email o, ∃ logs, cleanup email o = .ok logs) ∧
    (∀ email msg, cleanup email (.netError msg) = .ok [cleanupCatchWarn email msg]) ∧
    (∀ email status stx jb,
      cleanup email (.httpResp false status stx jb)
        = .ok [cleanupFailWarn email status stx]) ∧
    (∀ email status stx msg,
      cleanup email (.httpResp true status stx (.error msg))
        = .ok [cleanupCatchWarn email msg]) ∧
    (∀ email status stx b,
      cleanup email (.httpResp true status stx (.ok b))
        = .ok (if warningsTruthy b.warnings
               then [cleanupWarningsWarn email (b.warnings.getD [])]
               else [])) := by
  refine ⟨?_, fun _ _ => rfl, fun _ _ _ _ => rfl, fun _ _ _ _ => rfl, ?_⟩
  · intro email o
    cases o with
    | netError msg => exact ⟨_, rfl⟩
    | httpResp ok status stx jb =>
      cases ok <;> [exact ⟨_, rfl⟩; skip]
      cases jb with
      | error m => exact ⟨_, rfl⟩
      | ok b =>
        by_cases h : warningsTruthy b.warnings = true <;>
          simp [cleanup, cleanupTryBody, h]
  · intro email status stx b
    by_cases h : warningsTruthy b.warnings = true <;>
      simp [cleanup, cleanupTryBody, h]

/-- Every `cleanup` call resolves (helper for the teardown loop). -/
theorem cleanup_isOk (email : String) (o : FetchOutcome) :
    ∃ logs, cleanup email o = .ok logs := by
  unfold cleanup
  cases h : cleanupTryBody email o <;> exact ⟨_, rfl⟩

/-- The teardown loop attempts every email in order and completes. -/
theorem teardown_runs_all (outcomes : String → FetchOutcome) :
    ∀ l : List String, teardown outcomes l = .ok l := by
  intro l
  induction l with
  | nil => rfl
  | cons e rest ih =>
    obtain ⟨logs, hcl⟩ := cleanup_isOk e (outcomes e)
    simp only [teardown, hcl, ih]
    rfl

/-- C8: for every sequence of `createUser` calls, the tracked set is
exactly the emails of the successful calls in creation order (one entry
per successful call), and the teardown invokes `cleanup` exactly once per
tracked email, in that order, completing regardless of the individual
cleanup outcomes. -/
theorem tracked_emails_cleanup_once :
    ∀ (calls : List CreateCall) (outcomes : String → FetchOutcome),
      trackedEmails calls
        = (calls.filter (fun c => c.success)).map (fun c => c.email) ∧
      teardown outcomes (trackedEmails calls) = .ok (trackedEmails calls) := by
  intro calls outcomes
  refine ⟨?_, teardown_runs_all outcomes _⟩
  induction calls with
  | nil => rfl
  | cons c rest ih =>
    cases hc : c.success <;> simp [trackedEmails, hc, ih, List.filter]

/-- C9: a secret configured as the empty string suppresses the
`TEST_DATA_SECRET` environment fallback (nullish coalescing keeps the
empty string) and leaves the resolved secret falsy, so all three endpoints
answer 404 with no state change for every header — the empty string can
never authenticate a request. -/
theorem empty_secret_fail_closed :
    ∀ (env : Option String) (v : String) (plugins : List TestDataPlugin)
      (a : Adapter) (header : Option String) (request? : Option Unit)
      (body : CreateBody) (email : String) (db : DB) (authIds : List String),
      resolveSecret (some "") env = some "" ∧
      resolveSecret (some "") (some v) = some "" ∧
      resolveSecret none (some v) = some v ∧
      createTestUser (resolveSecret (some "") env) plugins a header request? body db
          = .ok ⟨disabledResp, db, [], none⟩ ∧
      deleteTestUser (resolveSecret (some "") env) plugins a header email db
          = .ok ⟨disabledResp, db, [], none⟩ ∧
      getTestCapabilities (resolveSecret (some "") env) plugins authIds header db
          = ⟨disabledResp, db, [], none⟩ := by
  intro env v plugins a header request? body email db authIds
  exact ⟨rfl, rfl, rfl, by simp [resolveSecret, createTestUser],
    by simp [resolveSecret, deleteTestUser],
    by simp [resolveSecret, getTestCapabilities]⟩

/-- Every id whose deletion the api-key cleanup loop invokes comes from
the accumulator or from the key list it was given. -/
theorem apiKeyDeleteLoop_deleted_from (deleteFails : Nat → Bool) :
    ∀ (keys rows : List ApiKeyRow) (acc : List Nat),
      ∀ i ∈ (apiKeyDeleteLoop deleteFails keys rows acc).2.1,
        i ∈ acc ∨ ∃ k ∈ keys, k.id = i := by
  intro keys
  induction keys with
  | nil =>
    intro rows acc i hi
    exact Or.inl hi
  | cons k rest ih =>
    intro rows acc i hi
    by_cases h : deleteFails k.id = true
    · simp [apiKeyDeleteLoop, h] at hi
      rcases hi with hi | hi
      · exact Or.inl hi
      · exact Or.inr ⟨k, by simp, hi.symm⟩
    · simp only [apiKeyDeleteLoop, h, if_false, Bool.false_eq_true] at hi
      rcases ih _ _ i hi with hacc | ⟨k', hk', hid⟩
      · rcases List.mem_append.1 hacc with h1 | h1
        · exact Or.inl h1
        · have h2 : i = k.id := by simpa using h1
          exact Or.inr ⟨k, by simp, h2.symm⟩
      · exact Or.inr ⟨k', by simp [hk'], hid⟩

/-- C10: the built-in api-key extension's `onDeleteUser` never lets an
adapter failure escape — a failing `findMany` yields a normal return with
nothing deleted, and a failing `delete` yields a normal return — and every
deletion it invokes targets a key whose `userId` is the user being
deleted. -/
theorem apiKey_onDeleteUser_swallows_and_scoped :
    ∀ (rows : List ApiKeyRow) (uid : Nat) (findFails : Bool)
      (deleteFails : Nat → Bool),
      (∃ rows' deleted,
        apiKeyOnDeleteUser rows uid findFails deleteFails = .ok (rows', deleted) ∧
        ∀ i ∈ deleted, ∃ k ∈ rows, k.id = i ∧ k.userId = uid) ∧
      apiKeyOnDeleteUser rows uid true deleteFails = .ok (rows, []) := by
  intro rows uid findFails deleteFails
  refine ⟨?_, rfl⟩
  cases findFails with
  | true => exact ⟨rows, [], rfl, by simp⟩
  | false =>
    refine ⟨(apiKeyDeleteLoop deleteFails (findKeysByUser rows uid) rows []).1,
      (apiKeyDeleteLoop deleteFails (findKeysByUser rows uid) rows []).2.1, ?_, ?_⟩
    · simp [apiKeyOnDeleteUser]
    · intro i hi
      rcases apiKeyDeleteLoop_deleted_from deleteFails (findKeysByUser rows uid)
          rows [] i hi with h | ⟨k, hk, hid⟩
      · simp at h
      · have := List.mem_filter.1 hk
        exact ⟨k, this.1, hid, by simpa using this.2⟩

/-- C10 witness: concrete run with one matching and one foreign key. -/
theorem apiKey_onDeleteUser_witness :
    (∃ rows' deleted,
      apiKeyOnDeleteUser [⟨1, 7⟩, ⟨2, 8⟩] 7 false (fun _ => false)
          = .ok (rows', deleted) ∧
      ∀ i ∈ deleted, ∃ k ∈ [(⟨1, 7⟩ : ApiKeyRow), ⟨2, 8⟩], k.id = i ∧ k.userId = 7) ∧
    apiKeyOnDeleteUser [⟨1, 7⟩, ⟨2, 8⟩] 7 true (fun _ => false)
        = .ok ([⟨1, 7⟩, ⟨2, 8⟩], []) :=
  apiKey_onDeleteUser_swallows_and_scoped [⟨1, 7⟩, ⟨2, 8⟩] 7 false (fun _ => false)

/-- Running the provisioning loop over a block of extensions that all
succeed continues with the remaining extensions, logging the block in
registration order with the per-extension options. -/
theorem runCreatePlugins_ok_block (a : Adapter) (u : UserRec) (s : SessionRec)
    (pd : Option (List (String × JVal))) :
    ∀ (pre rest : List TestDataPlugin) (st : LoopSt) (acc : List (String × JVal)),
      (∀ p ∈ pre, ∀ c o d, ∃ r, p.onCreateUser c o d = .ok r) →
      ∃ db' vs,
        runCreatePlugins a u s (some ()) pd (pre ++ rest) st acc
          = runCreatePlugins a u s (some ()) pd rest
              ⟨db', st.log ++ pre.map
                (fun p => .create p.id (lookupPluginOpts pd p.id))⟩
              (acc ++ vs) := by
  intro pre
  induction pre with
  | nil =>
    intro rest st acc _
    exact ⟨st.db, [], by simp⟩
  | cons p pre' ih =>
    intro rest st acc hok
    obtain ⟨⟨d1, v⟩, hr⟩ := hok p (by simp) ⟨u, s⟩ (lookupPluginOpts pd p.id) st.db
    obtain ⟨db', vs', heq⟩ := ih rest ⟨d1, st.log ++ [.create p.id (lookupPluginOpts pd p.id)]⟩
      (acc ++ [(p.id, v)]) (fun q hq => hok q (by simp [hq]))
    refine ⟨db', (p.id, v) :: vs', ?_⟩
    calc runCreatePlugins a u s (some ()) pd ((p :: pre') ++ rest) st acc
        = runCreatePlugins a u s (some ()) pd (pre' ++ rest)
            ⟨d1, st.log ++ [.create p.id (lookupPluginOpts pd p.id)]⟩
            (acc ++ [(p.id, v)]) := by
          simp only [List.cons_append, runCreatePlugins, hr, List.append_eq]
      _ = _ := by simpa using heq

/-- Running the provisioning loop where every extension succeeds ends in
`results` with the full registration-order log. -/
theorem runCreatePlugins_all_ok (a : Adapter) (u : UserRec) (s : SessionRec)
    (pd : Option (List (String × JVal))) (plugins : List TestDataPlugin)
    (st : LoopSt) (acc : List (String × JVal))
    (hok : ∀ p ∈ plugins, ∀ c o d, ∃ r, p.onCreateUser c o d = .ok r) :
    ∃ db' vs,
      runCreatePlugins a u s (some ()) pd plugins st acc
        = .results
            ⟨db', st.log ++ plugins.map
              (fun p => .create p.id (lookupPluginOpts pd p.id))⟩
            (acc ++ vs) := by
  obtain ⟨db', vs, heq⟩ :=
    runCreatePlugins_ok_block a u s pd plugins [] st acc hok
  exact ⟨db', vs, by simpa [runCreatePlugins] using heq⟩

/-- The deprovisioning loop logs exactly the extensions with a present
cleanup hook, in the order given, regardless of hook outcomes. -/
theorem runDeletePlugins_log (u : UserRec) :
    ∀ (l : List TestDataPlugin) (st : DelLoopSt),
      (runDeletePlugins u l st).log
        = st.log ++ (l.filter (fun p => p.onDeleteUser.isSome)).map
            (fun p => .delete p.id) := by
  intro l
  induction l with
  | nil => intro st; simp [runDeletePlugins]
  | cons p rest ih =>
    intro st
    cases hp : p.onDeleteUser with
    | none => simp [runDeletePlugins, hp, ih, List.filter]
    | some f =>
      cases hf : f u st.db with
      | ok db' => simp [runDeletePlugins, hp, hf, ih, List.filter]
      | error msg => simp [runDeletePlugins, hp, hf, ih, List.filter]

/-- The deprovisioning loop decomposes over list append. -/
theorem runDeletePlugins_append (u : UserRec) :
    ∀ (l1 l2 : List TestDataPlugin) (st : DelLoopSt),
      runDeletePlugins u (l1 ++ l2) st
        = runDeletePlugins u l2 (runDeletePlugins u l1 st) := by
  intro l1
  induction l1 with
  | nil => intro l2 st; simp [runDeletePlugins]
  | cons p rest ih =>
    intro l2 st
    cases hp : p.onDeleteUser with
    | none => simp [runDeletePlugins, hp, ih]
    | some f =>
      cases hf : f u st.db with
      | ok db' => simp [runDeletePlugins, hp, hf, ih]
      | error msg => simp [runDeletePlugins, hp, hf, ih]

/-- The deprovisioning loop only appends to the warning list. -/
theorem runDeletePlugins_warns_extend (u : UserRec) :
    ∀ (l : List TestDataPlugin) (st : DelLoopSt),
      ∃ extra, (runDeletePlugins u l st).warns = st.warns ++ extra := by
  intro l
  induction l with
  | nil => intro st; exact ⟨[], by simp [runDeletePlugins]⟩
  | cons p rest ih =>
    intro st
    cases hp : p.onDeleteUser with
    | none => simpa [runDeletePlugins, hp] using ih st
    | some f =>
      cases hf : f u st.db with
      | ok db' => simpa [runDeletePlugins, hp, hf] using ih ⟨db', st.warns, _⟩
      | error msg =>
        obtain ⟨extra, hx⟩ := ih ⟨st.db, st.warns ++ [pluginWarnMsg p.id msg], _⟩
        exact ⟨pluginWarnMsg p.id msg :: extra, by
          simpa [runDeletePlugins, hp, hf] using hx⟩

/-- When every present cleanup hook succeeds, the deprovisioning loop
records no warning. -/
theorem runDeletePlugins_clean (u : UserRec) :
    ∀ (l : List TestDataPlugin) (st : DelLoopSt),
      (∀ p ∈ l, ∀ g, p.onDeleteUser = some g → ∀ d, ∃ d', g u d = .ok d') →
      (runDeletePlugins u l st).warns = st.warns := by
  intro l
  induction l with
  | nil => intro st _; simp [runDeletePlugins]
  | cons p rest ih =>
    intro st h
    cases hp : p.onDeleteUser with
    | none => simp [runDeletePlugins, hp, ih _ (fun q hq => h q (by simp [hq]))]
    | some f =>
      obtain ⟨d', hd'⟩ := h p (by simp) f hp st.db
      simp [runDeletePlugins, hp, hd', ih _ (fun q hq => h q (by simp [hq]))]

/-- Bind on a successful `Except` computation (reduction helper). -/
theorem bind_ok_eq {α β ε : Type} (x : α) (f : α → Except ε β) :
    (Except.ok x : Except ε α) >>= f = f x := rfl

/-- `pure` on `Except` (reduction helper). -/
theorem pure_eq_ok {α ε : Type} (x : α) : (pure x : Except ε α) = .ok x := rfl

/-- C6: after every extension has run in a provisioning call, the session
is re-fetched by its token; if the re-fetch finds nothing the call fails
with a 500 and no session cookie is set (no fallback to the stale
in-memory session), and when it finds the session the cookie is set from
the re-fetched session state. -/
theorem session_refetch_fatal
    (a : Adapter) (s : String) (body : CreateBody) (db db3 : DB)
    (user : UserRec) (session : SessionRec) (plugins : List TestDataPlugin)
    (st : LoopSt) (rs : List (String × JVal))
    (hs : s ≠ "")
    (hBase : provisionBase a body db = .ok (db3, user, session))
    (hLoop : runCreatePlugins a user session (some ()) body.pluginData plugins
        ⟨db3, []⟩ [] = .results st rs) :
    (a.findSession session.token st.db = .ok none →
      createTestUser (some s) plugins a (some s) (some ()) body db
        = .ok ⟨⟨500, errorBody "Session lookup failed after plugin execution"⟩,
               st.db, st.log, none⟩) ∧
    (∀ fs, a.findSession session.token st.db = .ok (some fs) →
      createTestUser (some s) plugins a (some s) (some ()) body db
        = .ok ⟨⟨200, createOkBody user session rs⟩, st.db, st.log,
               some (fs.session, user)⟩) := by
  constructor
  · intro hFS
    simp [createTestUser, hs, hBase, hLoop, hFS, bind_ok_eq, pure_eq_ok]
  · intro fs hFS
    simp [createTestUser, hs, hBase, hLoop, hFS, bind_ok_eq, pure_eq_ok]

/-- C6 witness: a concrete run with one extension; the re-fetch finds the
session and the cookie is set from it. -/
theorem session_refetch_fatal_witness :
    createTestUser (some "s") [okPlugin] refAdapter (some "s") (some ()) body0 db0
      = .ok ⟨⟨200, createOkBody userW0 sessW0 [("org", .str "ok")]⟩, db3W,
             [.create "org" (.obj [])], some (sessW0, userW0)⟩ :=
  (session_refetch_fatal refAdapter "s" body0 db0 db3W userW0 sessW0 [okPlugin]
      ⟨db3W, [.create "org" (.obj [])]⟩ [("org", .str "ok")]
      (by decide) (by rfl) (by rfl)).2 ⟨sessW0⟩ (by rfl)

/-- C4: an authorized provisioning call invokes `onCreateUser` once per
registered extension, in registration order, passing the caller's
per-extension options with the empty object as default; an authorized
deprovisioning call invokes each present `onDeleteUser` once, in reverse
registration order. -/
theorem plugin_hooks_in_order
    (a : Adapter) (s : String) (body : CreateBody) (db dbD db3 : DB)
    (user : UserRec) (session : SessionRec) (plugins : List TestDataPlugin)
    (email : String) (found : FoundUser)
    (hs : s ≠ "")
    (hBase : provisionBase a body db = .ok (db3, user, session))
    (hok : ∀ p ∈ plugins, ∀ c o d, ∃ r, p.onCreateUser c o d = .ok r)
    (hFS : ∀ t d, ∃ r, a.findSession t d = .ok r)
    (hFind : a.findUserByEmail email dbD = .ok (some found))
    (hDel : ∀ d, ∃ d', a.deleteUser found.user.id d = .ok d') :
    (∃ out, createTestUser (some s) plugins a (some s) (some ()) body db = .ok out ∧
      out.log = plugins.map
        (fun p => .create p.id (lookupPluginOpts body.pluginData p.id))) ∧
    (∃ out, deleteTestUser (some s) plugins a (some s) email dbD = .ok out ∧
      out.log = (plugins.reverse.filter (fun p => p.onDeleteUser.isSome)).map
        (fun p => .delete p.id)) := by
  constructor
  · obtain ⟨db', vs, hRun⟩ :=
      runCreatePlugins_all_ok a user session body.pluginData plugins ⟨db3, []⟩ [] hok
    obtain ⟨r, hr⟩ := hFS session.token db'
    cases r with
    | none =>
      exact ⟨⟨⟨500, errorBody "Session lookup failed after plugin execution"⟩, db',
          plugins.map (fun p => .create p.id (lookupPluginOpts body.pluginData p.id)),
          none⟩,
        by simp [createTestUser, hs, hBase, hRun, hr, bind_ok_eq, pure_eq_ok], rfl⟩
    | some fs =>
      exact ⟨⟨⟨200, createOkBody user session vs⟩, db',
          plugins.map (fun p => .create p.id (lookupPluginOpts body.pluginData p.id)),
          some (fs.session, user)⟩,
        by simp [createTestUser, hs, hBase, hRun, hr, bind_ok_eq, pure_eq_ok], rfl⟩
  · have hlog := runDeletePlugins_log found.user plugins.reverse ⟨dbD, [], []⟩
    obtain ⟨d', hd⟩ :=
      hDel (runDeletePlugins found.user plugins.reverse ⟨dbD, [], []⟩).db
    exact ⟨⟨⟨200, deleteOkBody (runDeletePlugins found.user plugins.reverse
            ⟨dbD, [], []⟩).warns⟩, d',
        (runDeletePlugins found.user plugins.reverse ⟨dbD, [], []⟩).log, none⟩,
      by simp [deleteTestUser, hs, hFind, hd, bind_ok_eq, pure_eq_ok],
      by simpa using hlog⟩

/-- C4 witness: two extensions, both hooks succeeding, on the reference
adapter. -/
theorem plugin_hooks_in_order_witness :
    (∃ out, createTestUser (some "s") [okPlugin, delOkPlugin] refAdapter (some "s")
        (some ()) body0 db0 = .ok out ∧
      out.log = [okPlugin, delOkPlugin].map
        (fun p => .create p.id (lookupPluginOpts body0.pluginData p.id))) ∧
    (∃ out, deleteTestUser (some "s") [okPlugin, delOkPlugin] refAdapter (some "s")
        "a@test.local" dbW = .ok out ∧
      out.log = ([okPlugin, delOkPlugin].reverse.filter
          (fun p => p.onDeleteUser.isSome)).map (fun p => .delete p.id)) :=
  plugin_hooks_in_order refAdapter "s" body0 db0 dbW db3W userW0 sessW0
    [okPlugin, delOkPlugin] "a@test.local" ⟨userW0⟩
    (by decide) (by rfl)
    (by
      intro p hp c o d
      rcases (by simpa using hp : p = okPlugin ∨ p = delOkPlugin) with rfl | rfl
      · exact ⟨_, rfl⟩
      · exact ⟨_, rfl⟩)
    (fun t d => ⟨_, rfl⟩) (by rfl) (fun d => ⟨_, rfl⟩)

/-- C2: if an extension's `onCreateUser` throws during an authorized
provisioning call, no later extension is invoked, the orchestrator
attempts to delete the just-created user, the call yields a 500 whose
message names the failing extension, and a failed rollback is noted in
the message without masking the original error; when rollback succeeds
the user is gone from the final state (given the adapter's delete removes
that user). -/
theorem plugin_failure_rolls_back
    (a : Adapter) (s : String) (body : CreateBody) (db db3 : DB)
    (user : UserRec) (session : SessionRec)
    (pre post : List TestDataPlugin) (pbad : TestDataPlugin) (emsg : String)
    (hs : s ≠ "")
    (hBase : provisionBase a body db = .ok (db3, user, session))
    (hpre : ∀ p ∈ pre, ∀ c o d, ∃ r, p.onCreateUser c o d = .ok r)
    (hbad : ∀ c o d, pbad.onCreateUser c o d = .error emsg)
    (hDelSpec : ∀ d d', a.deleteUser user.id d = .ok d' →
        ∀ usr ∈ d'.users, usr.id ≠ user.id) :
    ∃ out dbi,
      createTestUser (some s) (pre ++ pbad :: post) a (some s) (some ()) body db
        = .ok out ∧
      out.log = pre.map (fun p => .create p.id (lookupPluginOpts body.pluginData p.id))
          ++ [.create pbad.id (lookupPluginOpts body.pluginData pbad.id)] ∧
      out.cookie = none ∧
      out.resp.status = 500 ∧
      ((∃ db2, a.deleteUser user.id dbi = .ok db2 ∧ out.db = db2 ∧
          out.resp = ⟨500, errorBody (pluginFailedMsg pbad.id emsg)⟩ ∧
          ∀ usr ∈ out.db.users, usr.id ≠ user.id) ∨
       (∃ e, a.deleteUser user.id dbi = .error e ∧ out.db = dbi ∧
          out.resp = ⟨500, errorBody (pluginFailedMsg pbad.id emsg ++ rollbackNote)⟩)) := by
  obtain ⟨dbi, vs, hpref⟩ := runCreatePlugins_ok_block a user session
    body.pluginData pre (pbad :: post) ⟨db3, []⟩ [] hpre
  cases hD : a.deleteUser user.id dbi with
  | ok db2 =>
    have hrun : runCreatePlugins a user session (some ()) body.pluginData
        (pre ++ pbad :: post) ⟨db3, []⟩ []
        = .respond ⟨db2, pre.map (fun p => .create p.id
              (lookupPluginOpts body.pluginData p.id))
            ++ [.create pbad.id (lookupPluginOpts body.pluginData pbad.id)]⟩
            ⟨500, errorBody (pluginFailedMsg pbad.id emsg)⟩ := by
      rw [hpref]
      simp only [runCreatePlugins, hbad, hD]
      simp
    refine ⟨⟨⟨500, errorBody (pluginFailedMsg pbad.id emsg)⟩, db2,
        pre.map (fun p => .create p.id (lookupPluginOpts body.pluginData p.id))
          ++ [.create pbad.id (lookupPluginOpts body.pluginData pbad.id)], none⟩,
      dbi, ?_, rfl, rfl, rfl,
      Or.inl ⟨db2, hD, rfl, rfl, hDelSpec dbi db2 hD⟩⟩
    simp [createTestUser, hs, hBase, hrun, bind_ok_eq, pure_eq_ok]
  | error e =>
    have hrun : runCreatePlugins a user session (some ()) body.pluginData
        (pre ++ pbad :: post) ⟨db3, []⟩ []
        = .respond ⟨dbi, pre.map (fun p => .create p.id
              (lookupPluginOpts body.pluginData p.id))
            ++ [.create pbad.id (lookupPluginOpts body.pluginData pbad.id)]⟩
            ⟨500, errorBody (pluginFailedMsg pbad.id emsg ++ rollbackNote)⟩ := by
      rw [hpref]
      simp only [runCreatePlugins, hbad, hD]
      simp
    refine ⟨⟨⟨500, errorBody (pluginFailedMsg pbad.id emsg ++ rollbackNote)⟩, dbi,
        pre.map (fun p => .create p.id (lookupPluginOpts body.pluginData p.id))
          ++ [.create pbad.id (lookupPluginOpts body.pluginData pbad.id)], none⟩,
      dbi, ?_, rfl, rfl, rfl, Or.inr ⟨e, hD, rfl, rfl⟩⟩
    simp [createTestUser, hs, hBase, hrun, bind_ok_eq, pure_eq_ok]

/-- C2 witness: a single always-throwing extension on the reference
adapter; rollback succeeds and the user record is gone. -/
theorem plugin_failure_rolls_back_witness :
    ∃ out dbi,
      createTestUser (some "s") [badPlugin] refAdapter (some "s")
          (some ()) body0 db0 = .ok out ∧
      out.log = [.create badPlugin.id (lookupPluginOpts body0.pluginData badPlugin.id)] ∧
      out.cookie = none ∧
      out.resp.status = 500 ∧
      ((∃ db2, refAdapter.deleteUser userW0.id dbi = .ok db2 ∧ out.db = db2 ∧
          out.resp = ⟨500, errorBody (pluginFailedMsg badPlugin.id "boom")⟩ ∧
          ∀ usr ∈ out.db.users, usr.id ≠ userW0.id) ∨
       (∃ e, refAdapter.deleteUser userW0.id dbi = .error e ∧ out.db = dbi ∧
          out.resp = ⟨500, errorBody (pluginFailedMsg badPlugin.id "boom"
            ++ rollbackNote)⟩)) :=
  plugin_failure_rolls_back refAdapter "s" body0 db0 db3W userW0 sessW0
    [] [] badPlugin "boom"
    (by decide) (by rfl) (by simp) (fun c o d => rfl)
    (by
      intro d d' h usr hm
      simp only [refAdapter] at h
      cases h
      have := (List.mem_filter.1 hm).2
      simpa using this)

/-- C3: if an extension's cleanup hook throws during an authorized
deprovisioning call, its failure is recorded as a warning, every present
cleanup hook still runs (in reverse registration order), the user is
still deleted afterwards, and the call succeeds with status 200 carrying
the warnings; when every cleanup hook succeeds, no warning is recorded. -/
theorem delete_failure_isolated
    (a : Adapter) (s : String) (email : String) (db : DB)
    (pre post : List TestDataPlugin) (pbad : TestDataPlugin)
    (f : UserRec → DB → Except String DB) (emsg : String) (found : FoundUser)
    (hs : s ≠ "")
    (hFind : a.findUserByEmail email db = .ok (some found))
    (hpbad : pbad.onDeleteUser = some f)
    (hfail : ∀ u d, f u d = .error emsg)
    (hDel : ∀ d, ∃ d', a.deleteUser found.user.id d = .ok d') :
    (∃ out d',
      deleteTestUser (some s) (pre ++ pbad :: post) a (some s) email db = .ok out ∧
      (runDeletePlugins found.user (pre ++ pbad :: post).reverse ⟨db, [], []⟩).log
        = (((pre ++ pbad :: post).reverse).filter
            (fun p => p.onDeleteUser.isSome)).map (fun p => .delete p.id) ∧
      pluginWarnMsg pbad.id emsg
        ∈ (runDeletePlugins found.user (pre ++ pbad :: post).reverse
            ⟨db, [], []⟩).warns ∧
      a.deleteUser found.user.id
          (runDeletePlugins found.user (pre ++ pbad :: post).reverse
            ⟨db, [], []⟩).db = .ok d' ∧
      out = ⟨⟨200, deleteOkBody (runDeletePlugins found.user
              (pre ++ pbad :: post).reverse ⟨db, [], []⟩).warns⟩, d',
            (runDeletePlugins found.user (pre ++ pbad :: post).reverse
              ⟨db, [], []⟩).log, none⟩) ∧
    (∀ (plugins2 : List TestDataPlugin) (db2 : DB) (u2 : UserRec),
      (∀ p ∈ plugins2, ∀ g, p.onDeleteUser = some g → ∀ d, ∃ d', g u2 d = .ok d') →
      (runDeletePlugins u2 plugins2.reverse ⟨db2, [], []⟩).warns = []) := by
  constructor
  · have hnorm : (pre ++ pbad :: post).reverse
        = post.reverse ++ pbad :: pre.reverse := by simp
    rw [hnorm]
    obtain ⟨d', hd⟩ := hDel (runDeletePlugins found.user
      (post.reverse ++ pbad :: pre.reverse) ⟨db, [], []⟩).db
    have happ := runDeletePlugins_append found.user post.reverse
      (pbad :: pre.reverse) ⟨db, [], []⟩
    have hstep : runDeletePlugins found.user (pbad :: pre.reverse)
        (runDeletePlugins found.user post.reverse ⟨db, [], []⟩)
        = runDeletePlugins found.user pre.reverse
            ⟨(runDeletePlugins found.user post.reverse ⟨db, [], []⟩).db,
             (runDeletePlugins found.user post.reverse ⟨db, [], []⟩).warns
               ++ [pluginWarnMsg pbad.id emsg],
             (runDeletePlugins found.user post.reverse ⟨db, [], []⟩).log
               ++ [.delete pbad.id]⟩ := by
      simp only [runDeletePlugins, hpbad, hfail]
    obtain ⟨extra, hex⟩ := runDeletePlugins_warns_extend found.user pre.reverse
      ⟨(runDeletePlugins found.user post.reverse ⟨db, [], []⟩).db,
       (runDeletePlugins found.user post.reverse ⟨db, [], []⟩).warns
         ++ [pluginWarnMsg pbad.id emsg],
       (runDeletePlugins found.user post.reverse ⟨db, [], []⟩).log
         ++ [.delete pbad.id]⟩
    refine ⟨⟨⟨200, deleteOkBody (runDeletePlugins found.user
          (post.reverse ++ pbad :: pre.reverse) ⟨db, [], []⟩).warns⟩, d',
        (runDeletePlugins found.user (post.reverse ++ pbad :: pre.reverse)
          ⟨db, [], []⟩).log, none⟩, d', ?_, ?_, ?_, hd, rfl⟩
    · simp [deleteTestUser, hs, hFind, hd, bind_ok_eq, pure_eq_ok]
    · simpa using runDeletePlugins_log found.user
        (post.reverse ++ pbad :: pre.reverse) ⟨db, [], []⟩
    · rw [happ, hstep, hex]
      simp
  · intro plugins2 db2 u2 hall
    exact runDeletePlugins_clean u2 plugins2.reverse ⟨db2, [], []⟩
      (fun p hp => hall p (by simpa using hp))

/-- C3 witness: one extension with a throwing cleanup hook on the
reference adapter. -/
theorem delete_failure_isolated_witness :
    (∃ out d',
      deleteTestUser (some "s") [delFailPlugin] refAdapter (some "s")
          "a@test.local" dbW = .ok out ∧
      (runDeletePlugins userW0 [delFailPlugin] ⟨dbW, [], []⟩).log
        = (([delFailPlugin]).filter
            (fun p => p.onDeleteUser.isSome)).map (fun p => .delete p.id) ∧
      pluginWarnMsg delFailPlugin.id "boom"
        ∈ (runDeletePlugins userW0 [delFailPlugin] ⟨dbW, [], []⟩).warns ∧
      refAdapter.deleteUser userW0.id
          (runDeletePlugins userW0 [delFailPlugin] ⟨dbW, [], []⟩).db = .ok d' ∧
      out = ⟨⟨200, deleteOkBody (runDeletePlugins userW0
              [delFailPlugin] ⟨dbW, [], []⟩).warns⟩, d',
            (runDeletePlugins userW0 [delFailPlugin] ⟨dbW, [], []⟩).log, none⟩) ∧
    (∀ (plugins2 : List TestDataPlugin) (db2 : DB) (u2 : UserRec),
      (∀ p ∈ plugins2, ∀ g, p.onDeleteUser = some g → ∀ d, ∃ d', g u2 d = .ok d') →
      (runDeletePlugins u2 plugins2.reverse ⟨db2, [], []⟩).warns = []) :=
  delete_failure_isolated refAdapter "s" "a@test.local" dbW [] []
    delFailPlugin delFailF "boom" ⟨userW0⟩
    (by decide) (by rfl) rfl (fun u d => rfl) (fun d => ⟨_, rfl⟩)

end BAP
